/-
Verification of the tile-extraction pipeline (scripts/split_portrait_sheet.py)
and of the narration endpoint (services/ai/app.py), as a shallow embedding.

Modelling conventions:
- Python ints are Int (floor division // is Int.fdiv); loop counters produced
  by range(...) are Nat.
- An image tile is abstracted by the data the pipeline actually inspects:
  the list of grayscale luminance values of its pixels (for ImageStat), and
  the luminance of the LANCZOS-resized (size+1) x size image used by dhash,
  as a function from the flattened row-major pixel index.
- The sheet is abstracted as the cropping oracle of Image.crop: a function
  from the crop box (x, y, x+cell_w, y+cell_h) to the cropped tile.
- The raising sites of the loop are modelled explicitly: Image.crop
  validates its box and raises ValueError when right < left or lower < upper,
  the ImageStat statistics raise ZeroDivisionError on a zero-pixel tile, and
  tile.save may fail (writeOk oracle).  A raised exception aborts the whole
  run: Except.error carries the exception kind (AbortReason) and the run
  state at the point of the abort, so that aborted runs are observable.
- Files actually written are recorded in the ghost field outputs (the file
  on disk is outputs-entry ++ ".png" inside the output directory, so the
  base names written are pairwise distinct iff the file paths are).
-/
import Mathlib

/-- popCountAux fuel n counts the set bits of n, recursing on fuel so that the
recursion is structural; fuel at least the bit length of n suffices. -/
def popCountAux : Nat → Nat → Nat
  | 0, _ => 0
  | fuel + 1, n => if n = 0 then 0 else n % 2 + popCountAux fuel (n / 2)

/-- Number of set bits of a natural number (int.bit_count in the source). -/
def popCount (n : Nat) : Nat := popCountAux (n + 1) n

/-- hamming_distance from the source: (a ^ b).bit_count(). -/
def hamming_distance (a b : Nat) : Nat := popCount (a ^^^ b)

/-- One step of the dhash inner loop: given the flattened row base
row = y * (size + 1) and the accumulator (bits, bit_idx), process column x:
bits gets bit bit_idx set iff pixels(row + x) > pixels(row + x + 1), and
bit_idx is incremented. -/
def dhashBit (pixels : Nat → Nat) (row : Nat) (acc : Nat × Nat) (x : Nat) : Nat × Nat :=
  (if pixels (row + x) > pixels (row + x + 1) then acc.1 ||| (1 <<< acc.2) else acc.1,
   acc.2 + 1)

/-- The inner for-x loop of dhash over one row y. -/
def dhashRow (pixels : Nat → Nat) (size : Nat) (acc : Nat × Nat) (y : Nat) : Nat × Nat :=
  (List.range size).foldl (dhashBit pixels (y * (size + 1))) acc

/-- dhash from the source.  pixels abstracts
list(tile.convert("L").resize((size + 1, size), LANCZOS).getdata()), indexed
row-major over (size + 1) columns and size rows.  The nested loops start from
(bits, bit_idx) = (0, 0). -/
def dhash (pixels : Nat → Nat) (size : Nat) : Nat :=
  ((List.range size).foldl (dhashRow pixels size) (0, 0)).1

/-- The dedupe test of the driver:
any(hamming_distance(tile_hash, h) <= args.dedupe_hamming for h in kept_hashes). -/
def isDuplicate (tile_hash : Nat) (kept : List Nat) (thr : Int) : Bool :=
  kept.any fun h => (hamming_distance tile_hash h : Int) ≤ thr

/-- ImageStat mean of a grayscale pixel list: sum / count. -/
def mean (gray : List ℚ) : ℚ := gray.sum / gray.length

/-- ImageStat variance: (sum2 - sum^2 / count) / count. -/
def variance (gray : List ℚ) : ℚ :=
  ((gray.map fun p => p ^ 2).sum - gray.sum ^ 2 / gray.length) / gray.length

/-- Population variance, sum of squared deviations from the mean over count;
proved below to agree with variance, so that sqrt popVariance is the
population standard deviation ImageStat.stddev computes. -/
def popVariance (gray : List ℚ) : ℚ :=
  ((gray.map fun p => (p - mean gray) ^ 2).sum) / gray.length

/-- is_empty_tile from the source: stat.stddev[0] < threshold and
stat.mean[0] < 40.  Since stddev = sqrt variance is irrational in general,
the comparison sqrt (variance) < threshold is encoded square-free as
0 < threshold and variance < threshold ^ 2; the equivalence with the sqrt
comparison is proved in the theorem for claim C5. -/
def is_empty_tile (gray : List ℚ) (threshold : ℚ) : Bool :=
  (decide (0 < threshold) && decide (variance gray < threshold ^ 2))
    && decide (mean gray < 40)

/-- Python format f-string piece idx:02d for the sequential index (zero-pad
to width 2; a sign counts toward the width, matching Python). -/
def formatIdx (idx : Int) : String :=
  if 0 ≤ idx ∧ idx < 10 then "0" ++ toString idx else toString idx

/-- The fallback filename of the driver:
idx = (r * args.cols) + c + 1; filename = prefix_idx formatted 02d. -/
def fallbackName (prefixStr : String) (cols : Int) (r c : Nat) : String :=
  prefixStr ++ "_" ++ formatIdx ((r : Int) * cols + (c : Int) + 1)

/-- OFFICER_PRESET_4X6 from the source: 1-based (row, col) to either a
canonical name or None (exclusion). -/
def OFFICER_PRESET_4X6 : List ((Int × Int) × Option String) :=
  [((1, 1), some "dong_zhuo"), ((1, 2), some "lu_bu"), ((1, 3), some "li_ru"),
   ((1, 4), some "hua_xiong"), ((1, 5), some "cao_cao"), ((1, 6), some "xun_yu"),
   ((2, 1), some "xiahou_dun"), ((2, 2), some "xiahou_yuan"), ((2, 3), some "zhao_yun"),
   ((2, 4), some "liu_bei"), ((2, 5), some "guan_yu"), ((2, 6), none),
   ((3, 1), some "zhang_fei"), ((3, 2), some "sun_jian"), ((3, 3), some "huang_gai"),
   ((3, 4), some "cheng_pu"), ((3, 5), some "yuan_shao"), ((3, 6), none),
   ((4, 1), some "yan_liang"), ((4, 2), some "wen_chou"), ((4, 3), some "yuan_shu"),
   ((4, 4), some "ji_ling"), ((4, 5), some "diaochan"), ((4, 6), some "player_default")]

/-- Command-line configuration of the script (args).  prefixStr is
args.prefix; preset is the string choice, "none" or "officers_4x6". -/
structure Config where
  rows : Int
  cols : Int
  margin : Int
  gap : Int
  prefixStr : String
  empty_threshold : ℚ
  no_dedupe : Bool
  dedupe_hamming : Int
  preset : String

/-- A cropped tile, abstracted by the data the pipeline inspects: its
grayscale pixel values and the resized grayscale pixels consumed by dhash. -/
structure Tile where
  gray : List ℚ
  resized : Nat → Nat

/-- The mutable run state of main: the four counters, the kept fingerprint
list, the used-name set (as a list), and the ghost list of written files. -/
structure RunState where
  written : Nat
  kept_hashes : List Nat
  skipped_empty : Nat
  skipped_duplicate : Nat
  skipped_by_preset : Nat
  used_names : List String
  outputs : List String
deriving DecidableEq, Repr

/-- The state at the start of a run: all counters zero, all lists empty. -/
def initState : RunState :=
  { written := 0, kept_hashes := [], skipped_empty := 0, skipped_duplicate := 0,
    skipped_by_preset := 0, used_names := [], outputs := [] }

/-- The exception with which a run aborts, together with the run state at
the point of the raise.  The program defines no ConfigurationError; the only
raising sites inside the per-cell loop are Image.crop, which raises
ValueError when the crop box is inverted (right < left or lower < upper),
the ImageStat statistics, which divide by the pixel count and raise
ZeroDivisionError on a zero-pixel tile, and tile.save. -/
inductive AbortReason where
  | cropValueError
  | statZeroDivisionError
  | saveError
deriving DecidableEq, Repr

/-- The run state carried by either outcome of a run (a completed run or an
aborted one). -/
def finalState : Except (AbortReason × RunState) RunState → RunState
  | .ok s => s
  | .error e => e.2

/-- cell_w of the driver: (width - 2 margin - (cols - 1) gap) // cols,
Python floor division. -/
def cellWidth (cfg : Config) (width : Int) : Int :=
  (width - 2 * cfg.margin - (cfg.cols - 1) * cfg.gap).fdiv cfg.cols

/-- cell_h of the driver, analogous with rows. -/
def cellHeight (cfg : Config) (height : Int) : Int :=
  (height - 2 * cfg.margin - (cfg.rows - 1) * cfg.gap).fdiv cfg.rows

/-- The body of the per-cell loop after the preset lookup: crop, emptiness
test, dhash and dedupe test, name resolution, collision guard, write.  Each
continue of the source is an Except.ok with one counter bumped; every raise
is an Except.error carrying the state unchanged (no run state is mutated
before the raising call in the source).  Image.crop validates its box before
producing a tile: right < left or lower < upper raises ValueError.  A
degenerate (zero-pixel) tile makes the ImageStat statistics inside
is_empty_tile divide by a zero pixel count, raising ZeroDivisionError; the
pixel list of the cropped tile is tile.gray, so that raise is modelled by
the tile.gray = [] test.  A failing tile.save raises after the write was
attempted (nothing was appended before the save call in the source). -/
def processTile (cfg : Config) (sheet : Int × Int × Int × Int → Tile)
    (writeOk : String → Bool) (cw ch : Int) (st : RunState) (r c : Nat)
    (mapped_name : Option String) : Except (AbortReason × RunState) RunState :=
  let x : Int := cfg.margin + (c : Int) * (cw + cfg.gap)
  let y : Int := cfg.margin + (r : Int) * (ch + cfg.gap)
  if x + cw < x ∨ y + ch < y then
    .error (.cropValueError, st)
  else
  let tile := sheet (x, y, x + cw, y + ch)
  if tile.gray = [] then
    .error (.statZeroDivisionError, st)
  else if is_empty_tile tile.gray cfg.empty_threshold then
    .ok { st with skipped_empty := st.skipped_empty + 1 }
  else
    let tile_hash := dhash tile.resized 8
    if !cfg.no_dedupe && isDuplicate tile_hash st.kept_hashes cfg.dedupe_hamming then
      .ok { st with skipped_duplicate := st.skipped_duplicate + 1 }
    else
      let filename :=
        match mapped_name with
        | some nm => if nm = "" then fallbackName cfg.prefixStr cfg.cols r c else nm
        | none => fallbackName cfg.prefixStr cfg.cols r c
      if filename ∈ st.used_names then
        .ok { st with skipped_by_preset := st.skipped_by_preset + 1 }
      else if writeOk filename then
        .ok { st with
                written := st.written + 1,
                kept_hashes := st.kept_hashes ++ [tile_hash],
                used_names := filename :: st.used_names,
                outputs := st.outputs ++ [filename] }
      else
        .error (.saveError, st)

/-- One iteration of the nested for-loops of main for the 0-based cell
(r, c): the preset lookup and skips, then processTile.  if mapped_name is
modelled with Python truthiness (None and the empty string both fall back to
the sequential name). -/
def processCell (cfg : Config) (sheet : Int × Int × Int × Int → Tile)
    (writeOk : String → Bool) (cw ch : Int) (st : RunState) (r c : Nat) :
    Except (AbortReason × RunState) RunState :=
  if cfg.preset = "officers_4x6" then
    match OFFICER_PRESET_4X6.lookup ((r : Int) + 1, (c : Int) + 1) with
    | none => .ok { st with skipped_by_preset := st.skipped_by_preset + 1 }
    | some none => .ok { st with skipped_by_preset := st.skipped_by_preset + 1 }
    | some (some nm) => processTile cfg sheet writeOk cw ch st r c (some nm)
  else
    processTile cfg sheet writeOk cw ch st r c none

/-- Run a step over a list of cells, propagating a raised exception
(Except.error) immediately, as the Python for-loop does. -/
def runCells (step : RunState → Nat × Nat → Except (AbortReason × RunState) RunState) :
    RunState → List (Nat × Nat) → Except (AbortReason × RunState) RunState
  | st, [] => .ok st
  | st, cell :: rest =>
    match step st cell with
    | .ok st2 => runCells step st2 rest
    | .error e => .error e

/-- The cells visited by the nested loops, row-major:
for r in range(rows): for c in range(cols). -/
def cellList (rows cols : Int) : List (Nat × Nat) :=
  (List.range rows.toNat).flatMap fun r => (List.range cols.toNat).map fun c => (r, c)

/-- main of the script (named mainRun because Lean reserves main for entry
points), from the computation of cell_w and cell_h through the nested
per-cell loops.  width and height are img.size; sheet is the cropping
oracle; writeOk tells whether tile.save succeeds for a given base name. -/
def mainRun (cfg : Config) (width height : Int) (sheet : Int × Int × Int × Int → Tile)
    (writeOk : String → Bool) : Except (AbortReason × RunState) RunState :=
  let cell_w := cellWidth cfg width
  let cell_h := cellHeight cfg height
  runCells (fun st cell => processCell cfg sheet writeOk cell_w cell_h st cell.1 cell.2)
    initState (cellList cfg.rows cfg.cols)

/-- A lore item of the narrate payload (a dict with optional title, body,
source in the Python service). -/
structure LoreItem where
  title : Option String := none
  body : Option String := none
  source : Option String := none

/-- NarrativeInput of services/ai/app.py, with its default field values. -/
structure NarrativeInput where
  actor : String
  action : String
  result : String
  mood : String := "epic"
  actor_role : String := "officer"
  target : Option String := none
  perspective : String := "officer"
  forbid_phrases : Option (List String) := none
  objective : Option String := none
  time : Option String := none
  location : Option String := none
  lore : Option (List LoreItem) := none

/-- The JSON object returned by the narrate endpoint. -/
structure NarrateResponse where
  text : String
  provider : String
deriving DecidableEq

/-- The event piece shared by both templated fallbacks of narrate, the
f-string actor(action) result of the source. -/
def event_line (p : NarrativeInput) : String :=
  p.actor ++ "의 행동(" ++ p.action ++ ") 결과: " ++ p.result ++ ". "

/-- The templated text returned when no API key is configured. -/
def template_text (p : NarrativeInput) : String :=
  event_line p ++ "난세의 기록관은 이를 비장한 승전보로 남겼다."

/-- The templated text returned when the backing model call raises. -/
def fallback_text (p : NarrativeInput) : String :=
  event_line p ++ "기록관은 이를 난세의 전공으로 간결히 남겼다."

/-- The narrate endpoint.  apiKey is OPENAI_API_KEY (Python truthiness:
the empty string means no credential).  The prompts built from the payload
only feed the external chat-completions call, which is abstracted by the
upstream oracle: Except.error reason models the call raising for any reason,
Except.ok content models a reply whose message content may be None; a falsy
content (None or empty) is replaced by payload.result. -/
def narrate (apiKey : String) (p : NarrativeInput)
    (upstream : Except String (Option String)) : NarrateResponse :=
  if apiKey = "" then
    { text := template_text p, provider := "template" }
  else
    match upstream with
    | .error _ => { text := fallback_text p, provider := "template-fallback" }
    | .ok content =>
      { text := match content with
                | some s => if s = "" then p.result else s
                | none => p.result,
        provider := "openai-compatible" }

/-
Concrete instances used by counterexamples and witnesses.
-/

/-- The default configuration of the script (all argparse defaults, preset
none). -/
def defaultCfg : Config :=
  { rows := 4, cols := 7, margin := 12, gap := 14, prefixStr := "portrait",
    empty_threshold := 2, no_dedupe := false, dedupe_hamming := 5, preset := "none" }

/-- A 1-row, 1-column, zero-margin, zero-gap configuration; the other
options keep their defaults. -/
def oneCellCfg : Config :=
  { rows := 1, cols := 1, margin := 0, gap := 0, prefixStr := "portrait",
    empty_threshold := 2, no_dedupe := false, dedupe_hamming := 5, preset := "none" }

/-- A sheet whose every crop is a flat bright tile: uniform luminance 200,
resized pixels all equal (so its dhash is 0). -/
def constSheet200 : Int × Int × Int × Int → Tile := fun _ => ⟨[200], fun _ => 0⟩

/-- Resized pixels realizing a prescribed 64-bit fingerprint h: within the
9-pixel row y, pixel x holds the count of set bits of h at flattened hash
positions 8 y + x .. 8 y + 7, so pixel x exceeds pixel x + 1 exactly when
bit 8 y + x of h is set. -/
def pixelsOfHash (h : Nat) : Nat → Nat := fun idx =>
  popCount ((h >>> (8 * (idx / 9) + idx % 9)) % (2 ^ (8 - idx % 9)))

/-- Fingerprint codewords: the 5-bit value i repeated in six disjoint 5-bit
fields (34636833 has bits 0, 5, 10, 15, 20.., 25), so two distinct codewords
differ in at least 6 bits, above the default Hamming threshold 5. -/
def hcode (i : Nat) : Nat := i * 34636833

/-- The synthetic 4 x 7 sheet of the end-to-end scenario: cell (0,0) is
solid black, cells (0,1) and (0,2) carry bit-identical non-black content,
every other cell carries pairwise-distant non-black content. -/
def tileFor (r c : Nat) : Tile :=
  if r = 0 ∧ c = 0 then ⟨[0], pixelsOfHash 0⟩
  else if r = 0 ∧ (c = 1 ∨ c = 2) then ⟨[200], pixelsOfHash (hcode 28)⟩
  else ⟨[200], pixelsOfHash (hcode (r * 7 + c))⟩

/-- The synthetic sheet as a cropping oracle.  Under defaultCfg with a
220 x 146 sheet, cell_w = 16 and cell_h = 20, so the crop box of cell
(r, c) is (12 + 30 c, 12 + 34 r, ..), from which the cell is recovered. -/
def syntheticSheet : Int × Int × Int × Int → Tile := fun box =>
  tileFor ((box.2.1 - 12) / 34).toNat ((box.1 - 12) / 30).toNat

/-- A sheet oracle whose crops have no pixels, as a real zero-width or
zero-height crop yields. -/
def degenerateSheet : Int × Int × Int × Int → Tile := fun _ => ⟨[], fun _ => 0⟩

/-- A payload for witnesses. -/
def payloadA : NarrativeInput :=
  { actor := "관우", action := "pledge_주공", result := "성공" }

/-- A payload agreeing with payloadA on actor, action and result but
differing in mood, target, forbid_phrases, objective and lore. -/
def payloadB : NarrativeInput :=
  { actor := "관우", action := "pledge_주공", result := "성공", mood := "dark",
    actor_role := "ronin", target := some "유비", forbid_phrases := some ["황제"],
    objective := some "통일", time := some "189", location := some "낙양",
    lore := some [{ title := some "적벽", body := some "대전" }] }

/-- The number of grid cells accounted by the four counters of a run state. -/
def totalCounted (s : RunState) : Nat :=
  s.written + s.skipped_empty + s.skipped_duplicate + s.skipped_by_preset

/-- The invariant behind claim C8: the written files are pairwise distinct
and every written base name has been recorded in the used-name set. -/
def NodupInv (st : RunState) : Prop :=
  st.outputs.Nodup ∧ ∀ n ∈ st.outputs, n ∈ st.used_names

/-
Theorems for the claims, with their helper lemmas.  The arithmetic of ℚ in
Batteries is marked irreducible for elaboration performance; it is unsealed
here so that concrete runs of the pipeline evaluate definitionally.
-/
unseal Rat.add Rat.mul Rat.inv Rat.sub

theorem processTile_ok_total (cfg : Config) (sheet : Int × Int × Int × Int → Tile)
    (writeOk : String → Bool) (cw ch : Int) (st : RunState) (r c : Nat)
    (mn : Option String) (st2 : RunState)
    (h : processTile cfg sheet writeOk cw ch st r c mn = .ok st2) :
    totalCounted st2 = totalCounted st + 1 := by
  unfold processTile at h
  dsimp only at h
  split at h
  · exact absurd h (by simp)
  · split at h
    · exact absurd h (by simp)
    · split at h
      · injection h with h; subst h; simp [totalCounted]; omega
      · split at h
        · injection h with h; subst h; simp [totalCounted]; omega
        · split at h
          · injection h with h; subst h; simp [totalCounted]; omega
          · split at h
            · injection h with h; subst h; simp [totalCounted]; omega
            · exact absurd h (by simp)

theorem processCell_ok_total (cfg : Config) (sheet : Int × Int × Int × Int → Tile)
    (writeOk : String → Bool) (cw ch : Int) (st : RunState) (r c : Nat) (st2 : RunState)
    (h : processCell cfg sheet writeOk cw ch st r c = .ok st2) :
    totalCounted st2 = totalCounted st + 1 := by
  unfold processCell at h
  split at h
  · split at h
    · injection h with h; subst h; simp [totalCounted]; omega
    · injection h with h; subst h; simp [totalCounted]; omega
    · exact processTile_ok_total _ _ _ _ _ _ _ _ _ _ h
  · exact processTile_ok_total _ _ _ _ _ _ _ _ _ _ h

theorem processTile_error_unchanged (cfg : Config) (sheet : Int × Int × Int × Int → Tile)
    (writeOk : String → Bool) (cw ch : Int) (st : RunState) (r c : Nat)
    (mn : Option String) (e : AbortReason × RunState)
    (h : processTile cfg sheet writeOk cw ch st r c mn = .error e) : e.2 = st := by
  unfold processTile at h
  dsimp only at h
  split at h
  · injection h with h; subst h; rfl
  · split at h
    · injection h with h; subst h; rfl
    · split at h
      · exact absurd h (by simp)
      · split at h
        · exact absurd h (by simp)
        · split at h
          · exact absurd h (by simp)
          · split at h
            · exact absurd h (by simp)
            · injection h with h; subst h; rfl

theorem processCell_error_eq (cfg : Config) (sheet : Int × Int × Int × Int → Tile)
    (writeOk : String → Bool) (cw ch : Int) (st : RunState) (r c : Nat)
    (e : AbortReason × RunState)
    (h : processCell cfg sheet writeOk cw ch st r c = .error e) : e.2 = st := by
  unfold processCell at h
  split at h
  · split at h
    · exact absurd h (by simp)
    · exact absurd h (by simp)
    · exact processTile_error_unchanged _ _ _ _ _ _ _ _ _ _ h
  · exact processTile_error_unchanged _ _ _ _ _ _ _ _ _ _ h

theorem runCells_ok_total
    (step : RunState → Nat × Nat → Except (AbortReason × RunState) RunState)
    (hstep : ∀ st cell st2, step st cell = .ok st2 →
      totalCounted st2 = totalCounted st + 1) :
    ∀ (l : List (Nat × Nat)) (st st2 : RunState),
      runCells step st l = .ok st2 → totalCounted st2 = totalCounted st + l.length := by
  intro l
  induction l with
  | nil =>
    intro st st2 h
    injection h with h
    subst h
    simp
  | cons cell rest ih =>
    intro st st2 h
    unfold runCells at h
    cases hc : step st cell with
    | ok stm =>
      rw [hc] at h
      have h1 := ih stm st2 h
      have h2 := hstep st cell stm hc
      simp [List.length_cons]
      omega
    | error e =>
      rw [hc] at h
      exact absurd h (by simp)

theorem cellList_length (rows cols : Int) :
    (cellList rows cols).length = rows.toNat * cols.toNat := by
  unfold cellList
  induction rows.toNat with
  | zero => simp
  | succ n ih =>
    rw [List.range_succ]
    simp only [List.flatMap_append, List.length_append, ih]
    simp [Nat.succ_mul]

theorem cellList_pos_head (rows cols : Int) (hr : 0 < rows) (hc : 0 < cols) :
    ∃ rest, cellList rows cols = (0, 0) :: rest := by
  obtain ⟨n, hn⟩ : ∃ n, rows.toNat = n + 1 := ⟨rows.toNat - 1, by omega⟩
  obtain ⟨m, hm⟩ : ∃ m, cols.toNat = m + 1 := ⟨cols.toNat - 1, by omega⟩
  unfold cellList
  rw [hn, hm, List.range_succ_eq_map]
  simp only [List.flatMap_cons]
  rw [List.range_succ_eq_map, List.map_cons, List.cons_append]
  exact ⟨_, rfl⟩

/-- Counterexample to claim C1: the program defines no ConfigurationError
and validates nothing.  With the default configuration on a 100 x 100 sheet
the computed cell width is -2 and the run enters the per-cell loop, where it
aborts with the ValueError that Image.crop raises on the inverted box of the
first cell - a crop-stage exception, not a configuration validation.  With a
108-pixel-wide sheet the computed cell width is 0: the first tile IS cropped
(a zero-pixel image) and the run aborts with the ZeroDivisionError of the
ImageStat statistics on that cropped tile, so the failure comes after a tile
was cropped, not before any cropping as the claim states. -/
theorem no_config_validation_counterexample :
    cellWidth defaultCfg 100 ≤ 0
    ∧ mainRun defaultCfg 100 100 constSheet200 (fun _ => true)
        = .error (.cropValueError, initState)
    ∧ cellWidth defaultCfg 108 = 0
    ∧ mainRun defaultCfg 108 146 degenerateSheet (fun _ => true)
        = .error (.statZeroDivisionError, initState) :=
  ⟨by decide, rfl, by decide, rfl⟩

/-- Claim C1 (amended): the code performs no validation of the computed cell
dimensions and defines no ConfigurationError.  With computed cell width or
height ≤ 0 the run still enters the per-cell loop and fails at its first
cell: a negative dimension aborts with the ValueError Image.crop raises on
the inverted box, and a zero dimension (the crop box degenerate, so the
cropped tile has no pixels) aborts with the ZeroDivisionError of the
ImageStat statistics on the already-cropped tile.  The failure is an abort
inside the loop with nothing counted or written, not a fail-fast
ConfigurationError raised before cropping begins. -/
theorem no_validation_abort_at_first_crop (cfg : Config) (w h : Int)
    (sheet : Int × Int × Int × Int → Tile) (writeOk : String → Bool)
    (hpre : cfg.preset ≠ "officers_4x6") (hr : 0 < cfg.rows) (hc : 0 < cfg.cols) :
    (cellWidth cfg w < 0 ∨ cellHeight cfg h < 0 →
      mainRun cfg w h sheet writeOk = .error (.cropValueError, initState))
    ∧ ((cellWidth cfg w = 0 ∨ cellHeight cfg h = 0) →
      0 ≤ cellWidth cfg w → 0 ≤ cellHeight cfg h →
      (sheet (cfg.margin, cfg.margin, cfg.margin + cellWidth cfg w,
        cfg.margin + cellHeight cfg h)).gray = [] →
      mainRun cfg w h sheet writeOk = .error (.statZeroDivisionError, initState)) := by
  obtain ⟨rest, hcl⟩ := cellList_pos_head cfg.rows cfg.cols hr hc
  constructor
  · intro hneg
    show runCells (fun st cell => processCell cfg sheet writeOk (cellWidth cfg w)
        (cellHeight cfg h) st cell.1 cell.2) initState (cellList cfg.rows cfg.cols)
      = Except.error (AbortReason.cropValueError, initState)
    rw [hcl]
    unfold runCells
    dsimp only
    have hp : processCell cfg sheet writeOk (cellWidth cfg w) (cellHeight cfg h)
        initState 0 0 = .error (.cropValueError, initState) := by
      unfold processCell
      rw [if_neg hpre]
      unfold processTile
      dsimp only
      rw [if_pos (by push_cast; omega)]
    rw [hp]
  · intro _hzero hnw hnh hgray
    show runCells (fun st cell => processCell cfg sheet writeOk (cellWidth cfg w)
        (cellHeight cfg h) st cell.1 cell.2) initState (cellList cfg.rows cfg.cols)
      = Except.error (AbortReason.statZeroDivisionError, initState)
    rw [hcl]
    unfold runCells
    dsimp only
    have hp : processCell cfg sheet writeOk (cellWidth cfg w) (cellHeight cfg h)
        initState 0 0 = .error (.statZeroDivisionError, initState) := by
      unfold processCell
      rw [if_neg hpre]
      unfold processTile
      dsimp only
      rw [if_neg (by push_cast; omega)]
      simp only [Nat.cast_zero, zero_mul, add_zero]
      rw [if_pos hgray]
    rw [hp]

/-- Witness for the amended claim C1 at both abort kinds: the negative-width
run aborts with the crop ValueError, the zero-width run with the ImageStat
ZeroDivisionError, both at the first cell with the state untouched. -/
theorem no_validation_abort_at_first_crop_witness :
    mainRun defaultCfg 100 100 constSheet200 (fun _ => true)
        = .error (.cropValueError, initState)
    ∧ mainRun defaultCfg 108 146 degenerateSheet (fun _ => true)
        = .error (.statZeroDivisionError, initState) :=
  ⟨(no_validation_abort_at_first_crop defaultCfg 100 100 constSheet200 (fun _ => true)
      (by decide) (by decide) (by decide)).1 (Or.inl (by decide)),
   (no_validation_abort_at_first_crop defaultCfg 108 146 degenerateSheet (fun _ => true)
      (by decide) (by decide) (by decide)).2 (Or.inl (by decide)) (by decide) (by decide)
      rfl⟩

/-- Counterexample to claim C2: a run on a single non-empty cell whose file
write fails aborts with the used-name set still empty, although the cell
resolved to the name portrait_01 and the write was attempted; so the name is
not added to the set before the write. -/
theorem name_added_before_write_counterexample :
    mainRun oneCellCfg 10 10 constSheet200 (fun _ => false)
        = .error (.saveError, initState)
    ∧ fallbackName oneCellCfg.prefixStr oneCellCfg.cols 0 0 = "portrait_01"
    ∧ "portrait_01" ∉ initState.used_names :=
  ⟨rfl, rfl, by decide⟩

/-- Claim C2 (amended): the resolved name is added to the used-name set only
after the file write succeeds, not before: if the write raises, the run
aborts with the run state, including the used-name set, exactly as it was
before the cell, so the set does not contain the name. -/
theorem write_failure_leaves_state_unchanged (cfg : Config)
    (sheet : Int × Int × Int × Int → Tile) (writeOk : String → Bool)
    (cw ch : Int) (st : RunState) (r c : Nat) (e : AbortReason × RunState)
    (h : processCell cfg sheet writeOk cw ch st r c = .error e) : e.2 = st :=
  processCell_error_eq cfg sheet writeOk cw ch st r c e h

/-- Witness for the amended claim C2: the aborted single-cell run left the
initial state untouched. -/
theorem write_failure_leaves_state_unchanged_witness : initState = initState :=
  write_failure_leaves_state_unchanged oneCellCfg constSheet200 (fun _ => false)
    10 10 initState 0 0 (AbortReason.saveError, initState) rfl

/-- Claim C7: on the fallback naming path the resolved name is the prefix,
an underscore, and the 1-based sequential index r * columns + c + 1
zero-padded to two digits; with 7 columns, cell (0,0) resolves to the prefix
followed by _01 and cell (1,0) to the prefix followed by _08. -/
theorem fallback_naming (p : String) (cols : Int) (r c : Nat) :
    fallbackName p cols r c = p ++ "_" ++ formatIdx ((r : Int) * cols + (c : Int) + 1)
    ∧ fallbackName p 7 0 0 = p ++ "_" ++ "01"
    ∧ fallbackName p 7 1 0 = p ++ "_" ++ "08" :=
  ⟨rfl, rfl, rfl⟩

/-- Claim C6: a candidate fingerprint is a duplicate iff some previously
kept fingerprint is within the Hamming threshold, and the boundary is
inclusive: distance exactly the threshold is a duplicate, threshold + 1 is
not. -/
theorem duplicate_iff_within_threshold (cand cand2 F1 : Nat) (kept : List Nat) (thr : Int)
    (hin : (hamming_distance cand F1 : Int) = thr)
    (hout : (hamming_distance cand2 F1 : Int) = thr + 1) :
    (isDuplicate cand kept thr = true ↔
      ∃ k ∈ kept, (hamming_distance cand k : Int) ≤ thr)
    ∧ isDuplicate cand [F1] thr = true
    ∧ isDuplicate cand2 [F1] thr = false := by
  refine ⟨by simp [isDuplicate], ?_, ?_⟩
  · simp only [isDuplicate, List.any_cons, List.any_nil, Bool.or_false]
    simpa using le_of_eq hin
  · simp only [isDuplicate, List.any_cons, List.any_nil, Bool.or_false]
    simp only [decide_eq_false_iff_not, not_le, hout]
    omega

/-- Witness for claim C6 at concrete fingerprints: distance 5 to the kept
fingerprint 0 is a duplicate under threshold 5, distance 6 is not. -/
theorem duplicate_iff_within_threshold_witness :
    (isDuplicate 31 [0] 5 = true ↔ ∃ k ∈ [0], (hamming_distance 31 k : Int) ≤ 5)
    ∧ isDuplicate 31 [0] 5 = true
    ∧ isDuplicate 63 [0] 5 = false :=
  duplicate_iff_within_threshold 31 63 0 [0] 5 (by decide) (by decide)

/-- Claim C3: the narrate endpoint is a total function of its inputs; with
no API key configured it returns the first template, a pure function of the
payload whatever the upstream oracle does, and when the backing call raises
for any reason it returns the second, different template, again a pure
function of the payload. -/
theorem narrate_total_fallbacks (p : NarrativeInput) (key reason : String)
    (u : Except String (Option String)) (hk : key ≠ "") :
    narrate "" p u = { text := template_text p, provider := "template" }
    ∧ narrate key p (.error reason) =
        { text := fallback_text p, provider := "template-fallback" }
    ∧ template_text p ≠ fallback_text p := by
  refine ⟨rfl, by simp [narrate, hk], ?_⟩
  intro h
  have h2 : (event_line p ++ "난세의 기록관은 이를 비장한 승전보로 남겼다.").data
      = (event_line p ++ "기록관은 이를 난세의 전공으로 간결히 남겼다.").data :=
    congrArg String.data h
  rw [String.data_append, String.data_append] at h2
  exact absurd (List.append_cancel_left h2) (by decide)

/-- Witness for claim C3 at a concrete payload and key. -/
theorem narrate_total_fallbacks_witness :
    narrate "" payloadA (.ok none) =
        { text := template_text payloadA, provider := "template" }
    ∧ narrate "k" payloadA (.error "boom") =
        { text := fallback_text payloadA, provider := "template-fallback" }
    ∧ template_text payloadA ≠ fallback_text payloadA :=
  narrate_total_fallbacks payloadA "k" "boom" (.ok none) (by decide)

/-- Claim C10: with no API key configured, the narrate response is a
function of the actor, action and result fields of the payload alone: two
payloads agreeing on those three fields produce identical text and provider,
whatever their other fields and whatever the upstream oracle would do. -/
theorem narrate_no_key_extensional (p1 p2 : NarrativeInput)
    (u1 u2 : Except String (Option String))
    (ha : p1.actor = p2.actor) (hb : p1.action = p2.action)
    (hc : p1.result = p2.result) :
    narrate "" p1 u1 = narrate "" p2 u2 := by
  simp [narrate, template_text, event_line, ha, hb, hc]

/-- Witness for claim C10: payloadA and payloadB agree only on actor, action
and result, and get the same response. -/
theorem narrate_no_key_extensional_witness :
    narrate "" payloadA (.ok (some "ignored")) = narrate "" payloadB (.error "x") :=
  narrate_no_key_extensional payloadA payloadB (.ok (some "ignored")) (.error "x") rfl rfl rfl

theorem processTile_nodupInv_ok (cfg : Config) (sheet : Int × Int × Int × Int → Tile)
    (writeOk : String → Bool) (cw ch : Int) (st : RunState) (r c : Nat)
    (mn : Option String) (st2 : RunState)
    (h : processTile cfg sheet writeOk cw ch st r c mn = .ok st2)
    (hst : NodupInv st) : NodupInv st2 := by
  obtain ⟨hnd, hsub⟩ := hst
  unfold processTile at h
  dsimp only at h
  split at h
  · exact absurd h (by simp)
  · split at h
    · exact absurd h (by simp)
    · split at h
      · injection h with h; subst h; exact ⟨hnd, hsub⟩
      · split at h
        · injection h with h; subst h; exact ⟨hnd, hsub⟩
        · split at h
          · injection h with h; subst h; exact ⟨hnd, hsub⟩
          · split at h
            · rename_i hfresh hw
              injection h with h
              subst h
              refine ⟨?_, ?_⟩
              · simp only [List.nodup_append]
                refine ⟨hnd, List.nodup_singleton _, ?_⟩
                intro n hn hn1
                rw [List.mem_singleton] at hn1
                subst hn1
                exact hfresh (hsub _ hn)
              · intro n hn
                rcases List.mem_append.1 hn with hn | hn
                · exact List.mem_cons_of_mem _ (hsub n hn)
                · rw [List.mem_singleton] at hn
                  subst hn
                  exact List.mem_cons_self _ _
            · exact absurd h (by simp)

theorem processCell_nodupInv_ok (cfg : Config) (sheet : Int × Int × Int × Int → Tile)
    (writeOk : String → Bool) (cw ch : Int) (st : RunState) (r c : Nat) (st2 : RunState)
    (h : processCell cfg sheet writeOk cw ch st r c = .ok st2)
    (hst : NodupInv st) : NodupInv st2 := by
  unfold processCell at h
  split at h
  · split at h
    · injection h with h; subst h; exact hst
    · injection h with h; subst h; exact hst
    · exact processTile_nodupInv_ok _ _ _ _ _ _ _ _ _ _ h hst
  · exact processTile_nodupInv_ok _ _ _ _ _ _ _ _ _ _ h hst

theorem runCells_preserves (P : RunState → Prop)
    (step : RunState → Nat × Nat → Except (AbortReason × RunState) RunState)
    (hok : ∀ st cell st2, step st cell = .ok st2 → P st → P st2)
    (herr : ∀ st cell e, step st cell = .error e → P st → P e.2) :
    ∀ (l : List (Nat × Nat)) (st : RunState), P st →
      P (finalState (runCells step st l)) := by
  intro l
  induction l with
  | nil => intro st h; exact h
  | cons cell rest ih =>
    intro st h
    unfold runCells
    cases hc : step st cell with
    | ok stm => exact ih stm (hok st cell stm hc h)
    | error e => exact herr st cell e hc h

theorem processTile_used_mono_ok (cfg : Config) (sheet : Int × Int × Int × Int → Tile)
    (writeOk : String → Bool) (cw ch : Int) (st : RunState) (r c : Nat)
    (mn : Option String) (st2 : RunState)
    (h : processTile cfg sheet writeOk cw ch st r c mn = .ok st2) :
    st.used_names ⊆ st2.used_names := by
  unfold processTile at h
  dsimp only at h
  split at h
  · exact absurd h (by simp)
  · split at h
    · exact absurd h (by simp)
    · split at h
      · injection h with h; subst h; exact fun a ha => ha
      · split at h
        · injection h with h; subst h; exact fun a ha => ha
        · split at h
          · injection h with h; subst h; exact fun a ha => ha
          · split at h
            · injection h with h; subst h; exact fun a ha => List.mem_cons_of_mem _ ha
            · exact absurd h (by simp)

theorem processCell_used_mono (cfg : Config) (sheet : Int × Int × Int × Int → Tile)
    (writeOk : String → Bool) (cw ch : Int) (st : RunState) (r c : Nat) :
    st.used_names ⊆ (finalState (processCell cfg sheet writeOk cw ch st r c)).used_names := by
  cases hc : processCell cfg sheet writeOk cw ch st r c with
  | ok st2 =>
    unfold processCell at hc
    split at hc
    · split at hc
      · injection hc with hc; subst hc; exact fun a ha => ha
      · injection hc with hc; subst hc; exact fun a ha => ha
      · exact processTile_used_mono_ok _ _ _ _ _ _ _ _ _ _ hc
    · exact processTile_used_mono_ok _ _ _ _ _ _ _ _ _ _ hc
  | error e =>
    have he : e.2 = st := processCell_error_eq _ _ _ _ _ _ _ _ _ hc
    intro a ha
    rw [show finalState (Except.error e) = e.2 from rfl, he]
    exact ha

/-- Claim C8: within one run no two written output files share a filename:
the used-name set only grows, a cell resolving to a name already in the set
is skipped without writing, and the base names of the files actually written
by a run (completed or aborted) are pairwise distinct. -/
theorem written_filenames_distinct (cfg : Config) (w h : Int)
    (sheet : Int × Int × Int × Int → Tile) (writeOk : String → Bool) :
    (finalState (mainRun cfg w h sheet writeOk)).outputs.Nodup
    ∧ ∀ (cw ch : Int) (st : RunState) (r c : Nat),
        st.used_names ⊆ (finalState (processCell cfg sheet writeOk cw ch st r c)).used_names := by
  constructor
  · have := runCells_preserves NodupInv
      (fun st cell => processCell cfg sheet writeOk (cellWidth cfg w) (cellHeight cfg h)
        st cell.1 cell.2)
      (fun st cell st2 hc hst => processCell_nodupInv_ok _ _ _ _ _ _ _ _ _ hc hst)
      (fun st cell e hc hst => (processCell_error_eq _ _ _ _ _ _ _ _ _ hc).symm ▸ hst)
      (cellList cfg.rows cfg.cols) initState ⟨List.nodup_nil, by simp [initState]⟩
    exact this.1
  · intro cw ch st r c
    exact processCell_used_mono cfg sheet writeOk cw ch st r c

/-- Claim C9: a completed run accounts every grid cell exactly once, so
written + skipped-empty + skipped-duplicate + skipped-by-preset equals
rows x cols; and the synthetic 4 x 7 sheet with one solid-black cell, two
bit-identical non-black cells and the rest distinct, under default options
and no preset, yields written = 26 = 4 * 7 - 2, skipped-empty = 1,
skipped-duplicate = 1, skipped-by-preset = 0. -/
theorem run_accounts_every_cell (cfg : Config) (w h : Int)
    (sheet : Int × Int × Int × Int → Tile) (writeOk : String → Bool) (s : RunState)
    (hrun : mainRun cfg w h sheet writeOk = .ok s) :
    totalCounted s = cfg.rows.toNat * cfg.cols.toNat
    ∧ ∃ s2, mainRun defaultCfg 220 146 syntheticSheet (fun _ => true) = .ok s2
        ∧ s2.written = 26 ∧ s2.skipped_empty = 1 ∧ s2.skipped_duplicate = 1
        ∧ s2.skipped_by_preset = 0
        ∧ s2.written + s2.skipped_empty + s2.skipped_duplicate + s2.skipped_by_preset
            = 4 * 7 := by
  constructor
  · unfold mainRun at hrun
    have := runCells_ok_total _
      (fun st cell st2 hc => processCell_ok_total _ _ _ _ _ _ _ _ _ hc)
      (cellList cfg.rows cfg.cols) initState s hrun
    rwa [cellList_length, show totalCounted initState = 0 from rfl, Nat.zero_add] at this
  · exact ⟨finalState (mainRun defaultCfg 220 146 syntheticSheet (fun _ => true)),
      rfl, by decide, by decide, by decide, by decide, by decide⟩

/-- Witness for claim C9 at the synthetic run itself. -/
theorem run_accounts_every_cell_witness :
    totalCounted (finalState (mainRun defaultCfg 220 146 syntheticSheet (fun _ => true)))
      = defaultCfg.rows.toNat * defaultCfg.cols.toNat
    ∧ ∃ s2, mainRun defaultCfg 220 146 syntheticSheet (fun _ => true) = .ok s2
        ∧ s2.written = 26 ∧ s2.skipped_empty = 1 ∧ s2.skipped_duplicate = 1
        ∧ s2.skipped_by_preset = 0
        ∧ s2.written + s2.skipped_empty + s2.skipped_duplicate + s2.skipped_by_preset
            = 4 * 7 :=
  run_accounts_every_cell defaultCfg 220 146 syntheticSheet (fun _ => true)
    (finalState (mainRun defaultCfg 220 146 syntheticSheet (fun _ => true))) rfl

theorem sum_sq_dev (l : List ℚ) (m : ℚ) :
    (l.map fun p => (p - m) ^ 2).sum
      = (l.map fun p => p ^ 2).sum - 2 * m * l.sum + l.length * m ^ 2 := by
  induction l with
  | nil => simp
  | cons a tl ih =>
    simp only [List.map_cons, List.sum_cons, List.length_cons, ih]
    push_cast
    ring

theorem variance_eq_popVariance (gray : List ℚ) (hg : gray ≠ []) :
    variance gray = popVariance gray := by
  have hn : (gray.length : ℚ) ≠ 0 := Nat.cast_ne_zero.2 (List.length_pos.2 hg).ne'
  unfold variance popVariance mean
  rw [sum_sq_dev]
  field_simp
  ring

theorem popVariance_nonneg (gray : List ℚ) : 0 ≤ popVariance gray := by
  unfold popVariance
  refine div_nonneg (List.sum_nonneg ?_) (Nat.cast_nonneg _)
  intro x hx
  obtain ⟨p, _, rfl⟩ := List.mem_map.1 hx
  positivity

theorem mean_replicate (n : Nat) (hn : 0 < n) (v : ℚ) :
    mean (List.replicate n v) = v := by
  have hq : (n : ℚ) ≠ 0 := Nat.cast_ne_zero.2 hn.ne'
  unfold mean
  rw [List.sum_replicate, List.length_replicate, nsmul_eq_mul]
  field_simp

theorem variance_replicate (n : Nat) (hn : 0 < n) (v : ℚ) :
    variance (List.replicate n v) = 0 := by
  have hq : (n : ℚ) ≠ 0 := Nat.cast_ne_zero.2 hn.ne'
  unfold variance
  rw [List.map_replicate, List.sum_replicate, List.sum_replicate, List.length_replicate,
    nsmul_eq_mul, nsmul_eq_mul]
  field_simp
  ring

/-- Claim C5: a tile is classified empty iff its population standard
deviation (the square root of the population variance of its luminance) is
strictly below the threshold and its mean luminance is strictly below 40;
a uniform value-0 tile is empty and a uniform value-200 tile is not empty
under the default threshold 2. -/
theorem is_empty_tile_spec (gray : List ℚ) (t : ℚ) (n : Nat)
    (hg : gray ≠ []) (hn : 0 < n) :
    (is_empty_tile gray t = true ↔
      (Real.sqrt ((popVariance gray : ℚ) : ℝ) < (t : ℝ) ∧ mean gray < 40))
    ∧ is_empty_tile (List.replicate n 0) 2 = true
    ∧ is_empty_tile (List.replicate n 200) 2 = false := by
  refine ⟨?_, ?_, ?_⟩
  · rw [show (is_empty_tile gray t
        = ((decide (0 < t) && decide (variance gray < t ^ 2)) && decide (mean gray < 40)))
        from rfl]
    rw [variance_eq_popVariance gray hg]
    simp only [Bool.and_eq_true, decide_eq_true_eq]
    constructor
    · rintro ⟨⟨ht, hvar⟩, hm⟩
      refine ⟨?_, hm⟩
      rw [Real.sqrt_lt' (by exact_mod_cast ht)]
      exact_mod_cast hvar
    · rintro ⟨hs, hm⟩
      have ht : 0 < t := by
        by_contra hle
        push_neg at hle
        have h1 : (t : ℝ) ≤ 0 := by exact_mod_cast hle
        have h2 : (0 : ℝ) ≤ Real.sqrt ((popVariance gray : ℚ) : ℝ) := Real.sqrt_nonneg _
        linarith
      refine ⟨⟨ht, ?_⟩, hm⟩
      have := (Real.sqrt_lt' (show (0 : ℝ) < (t : ℝ) by exact_mod_cast ht)).1 hs
      exact_mod_cast this
  · have h1 := variance_replicate n hn (0 : ℚ)
    have h2 := mean_replicate n hn (0 : ℚ)
    rw [show (is_empty_tile (List.replicate n 0) 2
        = ((decide ((0:ℚ) < 2) && decide (variance (List.replicate n 0) < 2 ^ 2))
            && decide (mean (List.replicate n 0) < 40))) from rfl, h1, h2]
    norm_num
  · have h2 := mean_replicate n hn (200 : ℚ)
    rw [show (is_empty_tile (List.replicate n 200) 2
        = ((decide ((0:ℚ) < 2) && decide (variance (List.replicate n 200) < 2 ^ 2))
            && decide (mean (List.replicate n 200) < 40))) from rfl, h2]
    norm_num

/-- Witness for claim C5 at a concrete two-pixel tile and threshold. -/
theorem is_empty_tile_spec_witness :
    (is_empty_tile [0, 2] 1 = true ↔
      (Real.sqrt ((popVariance [0, 2] : ℚ) : ℝ) < ((1 : ℚ) : ℝ) ∧ mean [0, 2] < 40))
    ∧ is_empty_tile (List.replicate 3 0) 2 = true
    ∧ is_empty_tile (List.replicate 3 200) 2 = false :=
  is_empty_tile_spec [0, 2] 1 3 (by decide) (by decide)

theorem dhashFold_snd (p : Nat → Nat) (base : Nat) (l : List Nat) :
    ∀ (b i : Nat), ((l.foldl (dhashBit p base) (b, i)).2) = i + l.length := by
  induction l with
  | nil => intro b i; simp
  | cons x tl ih =>
    intro b i
    rw [List.foldl_cons,
      show dhashBit p base (b, i) x = ((dhashBit p base (b, i) x).1, i + 1) from rfl, ih]
    simp only [List.length_cons]
    omega

theorem dhashRange_testBit (p : Nat → Nat) (base : Nat) :
    ∀ (n b i : Nat), (∀ k, i ≤ k → b.testBit k = false) →
      ∀ j, (((List.range n).foldl (dhashBit p base) (b, i)).1).testBit j
        = if i ≤ j ∧ j < i + n then
            decide (p (base + (j - i)) > p (base + (j - i) + 1))
          else b.testBit j := by
  intro n
  induction n with
  | zero =>
    intro b i hb j
    simp only [List.range_zero, List.foldl_nil]
    rw [if_neg (by omega)]
  | succ n ih =>
    intro b i hb j
    rw [List.range_succ, List.foldl_append, List.foldl_cons, List.foldl_nil]
    have hF : (List.range n).foldl (dhashBit p base) (b, i)
        = (((List.range n).foldl (dhashBit p base) (b, i)).1, i + n) :=
      Prod.ext rfl ((dhashFold_snd p base (List.range n) b i).trans
        (by rw [List.length_range]))
    rw [hF]
    show (if p (base + n) > p (base + n + 1) then
            ((List.range n).foldl (dhashBit p base) (b, i)).1 ||| 1 <<< (i + n)
          else ((List.range n).foldl (dhashBit p base) (b, i)).1).testBit j = _
    by_cases hc : p (base + n) > p (base + n + 1)
    · rw [if_pos hc, Nat.testBit_or, Nat.shiftLeft_eq, one_mul, Nat.testBit_two_pow,
        ih b i hb j]
      by_cases h1 : i ≤ j ∧ j < i + n
      · rw [if_pos h1, if_pos (by omega)]
        have hne : decide (i + n = j) = false := by
          simp only [decide_eq_false_iff_not]
          omega
        rw [hne, Bool.or_false]
      · rw [if_neg h1]
        by_cases h2 : j = i + n
        · subst h2
          rw [if_pos (by omega), hb (i + n) (by omega), Bool.false_or]
        
          have h3 : decide (i + n = i + n) = true := by simp
          rw [h3]
          have h4 : i + n - i = n := by omega
          rw [h4]
          exact (decide_eq_true hc).symm
        · have hne : decide (i + n = j) = false := by
            simp only [decide_eq_false_iff_not]
            omega
          rw [hne, Bool.or_false, if_neg (by omega)]
    · rw [if_neg hc, ih b i hb j]
      by_cases h1 : i ≤ j ∧ j < i + n
      · rw [if_pos h1, if_pos (by omega)]
      · rw [if_neg h1]
        by_cases h2 : j = i + n
        · subst h2
          rw [if_pos (by omega), hb (i + n) (by omega)]
          have h4 : i + n - i = n := by omega
          rw [h4]
          exact (decide_eq_false hc).symm
        · rw [if_neg (by omega)]

theorem dhashOuter (p : Nat → Nat) (size : Nat) :
    ∀ (k : Nat),
      (((List.range k).foldl (dhashRow p size) (0, 0)).2 = k * size)
      ∧ ∀ j, (((List.range k).foldl (dhashRow p size) (0, 0)).1).testBit j
          = if j < k * size then
              decide (p ((j / size) * (size + 1) + j % size) >
                p ((j / size) * (size + 1) + j % size + 1))
            else false := by
  intro k
  induction k with
  | zero =>
    refine ⟨by simp, fun j => ?_⟩
    rw [if_neg (by omega)]
    exact Nat.zero_testBit j
  | succ k ih =>
    obtain ⟨ihs, ihb⟩ := ih
    rw [List.range_succ, List.foldl_append, List.foldl_cons, List.foldl_nil]
    have hF : (List.range k).foldl (dhashRow p size) (0, 0)
        = (((List.range k).foldl (dhashRow p size) (0, 0)).1, k * size) :=
      Prod.ext rfl ihs
    rw [hF]
    generalize hB : ((List.range k).foldl (dhashRow p size) (0, 0)).1 = B at ihb ⊢
    unfold dhashRow
    have hb : ∀ m, k * size ≤ m → B.testBit m = false := by
      intro m hm
      rw [ihb m, if_neg (by omega)]
    constructor
    · rw [dhashFold_snd, List.length_range, add_one_mul]
    · intro j
      rw [dhashRange_testBit p (k * (size + 1)) size B (k * size) hb j]
      by_cases h1 : k * size ≤ j ∧ j < k * size + size
      · have hlt : j < (k + 1) * size := by rw [add_one_mul]; omega
        rw [if_pos h1, if_pos hlt]
        have hdiv : j / size = k :=
          Nat.div_eq_of_lt_le h1.1 (by rw [add_one_mul]; omega)
        have hmod : j % size = j - k * size := by
          conv_lhs => rw [show j = (j - k * size) + size * k by rw [Nat.mul_comm size k]; omega]
          rw [Nat.add_mul_mod_self_left, Nat.mod_eq_of_lt (by omega)]
        rw [hdiv, hmod]
      · rw [if_neg h1, ihb j]
        by_cases h2 : j < k * size
        · rw [if_pos h2, if_pos (by rw [add_one_mul]; omega)]
        · rw [if_neg h2, if_neg (by rw [add_one_mul]; omega)]

/-- Claim C4: for every pixel oracle and hash grid size, the difference hash
sets the bit at flattened index y * N + x (row-major, least significant bit
first) iff the resized luminance satisfies pixel(x, y) > pixel(x + 1, y)
strictly (the pixel at flattened index y * (N + 1) + x against its right
neighbour); ties clear the bit since the comparison is strict; and two pixel
oracles with identical content hash to bit-identical fingerprints. -/
theorem dhash_spec (p q : Nat → Nat) (size x y : Nat) (hx : x < size) (hy : y < size)
    (hpq : ∀ i, p i = q i) :
    (dhash p size).testBit (y * size + x)
      = decide (p (y * (size + 1) + x) > p (y * (size + 1) + x + 1))
    ∧ dhash p size = dhash q size := by
  constructor
  · rw [show dhash p size = ((List.range size).foldl (dhashRow p size) (0, 0)).1 from rfl,
      (dhashOuter p size size).2 (y * size + x)]
    have hlt : y * size + x < size * size := by
      have h1 : y * size + x < (y + 1) * size := by rw [add_one_mul]; omega
      have h2 : (y + 1) * size ≤ size * size := Nat.mul_le_mul_right size (by omega)
      omega
    rw [if_pos hlt]
    have hdiv : (y * size + x) / size = y :=
      Nat.div_eq_of_lt_le (Nat.le_add_right _ _) (by rw [add_one_mul]; omega)
    have hmod : (y * size + x) % size = x := by
      conv_lhs => rw [show y * size + x = x + size * y by rw [Nat.mul_comm size y]; omega]
      rw [Nat.add_mul_mod_self_left, Nat.mod_eq_of_lt hx]
    rw [hdiv, hmod]
  · rw [funext hpq]

/-- Witness for claim C4 at a concrete pixel oracle, size 8, x = 3, y = 2. -/
theorem dhash_spec_witness :
    ((dhash (fun i => i % 3) 8).testBit (2 * 8 + 3)
      = decide ((fun i : Nat => i % 3) (2 * (8 + 1) + 3)
          > (fun i : Nat => i % 3) (2 * (8 + 1) + 3 + 1)))
    ∧ dhash (fun i => i % 3) 8 = dhash (fun i => i % 3) 8 :=
  dhash_spec (fun i => i % 3) (fun i => i % 3) 8 3 2 (by decide) (by decide) (fun i => rfl)
